import Mathlib

/-!
Verification of the Picture-Project approval-workflow server.

This file gives a shallow embedding of the server-side workflow logic of the
repository: the entity tables (users, jobs, steps, uploads, reviews from the
drizzle schema in shared/schema), the storage layer queries it uses
(DatabaseStorage in server/storage), and the route handlers that form the
workflow orchestrator (registerRoutes: POST /api/jobs, POST /api/uploads,
POST /api/reviews and GET /api/worker/current-step).  The route handlers are
embedded from the full workflow revision of the routes file (the revision that
implements next-step activation on approval; it also appears verbatim in the
second full revision).  Statuses are kept as strings, exactly as the varchar
columns store them.  The database is modelled as in-memory lists of rows plus
the serial-id counters; each handler is a pure function from a database state
and the parsed request to an HTTP-outcome and the new database state.
-/

/-- A row of the `users` table: id and role ("manager" / "worker"). -/
structure User where
  id : String
  role : String
deriving DecidableEq, Repr

/-- A row of the `jobs` table. -/
structure Job where
  id : Nat
  title : String
  description : String
  managerId : String
  workerId : String
  status : String
deriving DecidableEq, Repr

/-- A row of the `steps` table. -/
structure Step where
  id : Nat
  jobId : Nat
  title : String
  description : String
  instructions : String
  order : Nat
  status : String
deriving DecidableEq, Repr

/-- A row of the `uploads` table. -/
structure Upload where
  id : Nat
  stepId : Nat
  workerId : String
  filename : String
  originalName : String
  mimeType : String
  size : Nat
deriving DecidableEq, Repr

/-- A row of the `reviews` table; `status` is the decision string. -/
structure Review where
  id : Nat
  uploadId : Nat
  managerId : String
  status : String
  feedback : Option String
deriving DecidableEq, Repr

/-- The database state: the five tables and the serial-id counters. -/
structure DB where
  usersTbl : List User
  jobsTbl : List Job
  stepsTbl : List Step
  uploadsTbl : List Upload
  reviewsTbl : List Review
  nextJobId : Nat
  nextStepId : Nat
  nextUploadId : Nat
  nextReviewId : Nat
deriving DecidableEq, Repr

/-- Outcome of a request, by HTTP status class of the handlers:
200 ok, 403 forbidden, 404 not found, 400 bad request (validation). -/
inductive ApiResult where
  | ok
  | forbidden
  | notFound
  | badRequest
deriving DecidableEq, Repr

/-- Metadata of an uploaded file (multer's req.file). -/
structure FileMeta where
  filename : String
  originalName : String
  mimeType : String
  size : Nat
deriving DecidableEq, Repr

/-- A step draft in the POST /api/jobs request body. -/
structure StepDraft where
  title : String
  description : String
  instructions : String
deriving DecidableEq, Repr

/-! ### Storage layer (DatabaseStorage) -/

/-- `storage.getUser`: first users row with this id. -/
def getUser (db : DB) (id : String) : Option User :=
  db.usersTbl.find? (fun u => u.id == id)

/-- `storage.getStep`: first steps row with this id. -/
def getStep (db : DB) (id : Nat) : Option Step :=
  db.stepsTbl.find? (fun s => s.id == id)

/-- `storage.getUpload`: first uploads row with this id. -/
def getUpload (db : DB) (id : Nat) : Option Upload :=
  db.uploadsTbl.find? (fun u => u.id == id)

/-- The comparison the step queries and the route sort use: ascending `order`. -/
def stepLE (a b : Step) : Prop := a.order ≤ b.order

instance : DecidableRel stepLE :=
  fun a b => inferInstanceAs (Decidable (a.order ≤ b.order))

instance : IsTotal Step stepLE :=
  ⟨fun a b => Nat.le_total a.order b.order⟩

instance : IsTrans Step stepLE :=
  ⟨fun _ _ _ hab hbc => Nat.le_trans hab hbc⟩

/-- Sorting a list of steps by ascending `order` (the DB's orderBy asc and the
route's explicit comparator sort). -/
def sortByOrder (l : List Step) : List Step :=
  List.insertionSort stepLE l

/-- `storage.getStepsByJob`: the job's steps, ordered by ascending `order`. -/
def getStepsByJob (db : DB) (jobId : Nat) : List Step :=
  sortByOrder (db.stepsTbl.filter (fun s => s.jobId == jobId))

/-- `storage.updateStepStatus`: set `status` on every steps row with this id. -/
def updateStepStatus (db : DB) (id : Nat) (status : String) : DB :=
  { db with stepsTbl :=
      db.stepsTbl.map (fun s => if s.id = id then { s with status := status } else s) }

/-- `storage.updateJobStatus`: set `status` on every jobs row with this id. -/
def updateJobStatus (db : DB) (id : Nat) (status : String) : DB :=
  { db with jobsTbl :=
      db.jobsTbl.map (fun j => if j.id = id then { j with status := status } else j) }

/-- `storage.createJob`: insert a jobs row, serial id. -/
def createJobRow (db : DB) (title description managerId workerId status : String) :
    Job × DB :=
  let j : Job := ⟨db.nextJobId, title, description, managerId, workerId, status⟩
  (j, { db with jobsTbl := db.jobsTbl ++ [j], nextJobId := db.nextJobId + 1 })

/-- `storage.createStep`: insert a steps row, serial id. -/
def createStepRow (db : DB) (jobId : Nat) (title description instructions : String)
    (order : Nat) (status : String) : Step × DB :=
  let s : Step := ⟨db.nextStepId, jobId, title, description, instructions, order, status⟩
  (s, { db with stepsTbl := db.stepsTbl ++ [s], nextStepId := db.nextStepId + 1 })

/-- `storage.createUpload`: insert an uploads row, serial id. -/
def createUploadRow (db : DB) (stepId : Nat) (workerId : String) (f : FileMeta) :
    Upload × DB :=
  let u : Upload := ⟨db.nextUploadId, stepId, workerId, f.filename, f.originalName,
    f.mimeType, f.size⟩
  (u, { db with uploadsTbl := db.uploadsTbl ++ [u], nextUploadId := db.nextUploadId + 1 })

/-- `storage.createReview`: insert a reviews row, serial id.  Note it inserts
unconditionally: there is no uniqueness or state check in the storage layer. -/
def createReviewRow (db : DB) (uploadId : Nat) (managerId status : String)
    (feedback : Option String) : Review × DB :=
  let r : Review := ⟨db.nextReviewId, uploadId, managerId, status, feedback⟩
  (r, { db with reviewsTbl := db.reviewsTbl ++ [r], nextReviewId := db.nextReviewId + 1 })

/-- `storage.getWorkerCurrentStep`: the worker's first jobs row with stored
status "in_progress"; within it, the first step (ascending `order`) whose
status is not "approved". -/
def getWorkerCurrentStep (db : DB) (workerId : String) : Option Step :=
  match db.jobsTbl.find? (fun j => j.workerId == workerId && j.status == "in_progress") with
  | none => none
  | some activeJob =>
      (sortByOrder (db.stepsTbl.filter (fun s => s.jobId == activeJob.id))).find?
        (fun s => s.status != "approved")

/-! ### Workflow orchestrator (route handlers) -/

/-- The step-creation loop of POST /api/jobs: step i gets order i+1, the first
draft "awaiting_upload", the rest "pending". -/
def createStepsLoop (db : DB) (jobId : Nat) (drafts : List StepDraft) (i : Nat) : DB :=
  match drafts with
  | [] => db
  | d :: rest =>
      let db1 := (createStepRow db jobId d.title d.description d.instructions (i + 1)
        (if i = 0 then "awaiting_upload" else "pending")).2
      createStepsLoop db1 jobId rest (i + 1)

/-- POST /api/jobs: manager-only; rejects a falsy title, worker id or step
list; creates the job with status "in_progress" and its steps. -/
def createJob (db : DB) (userId title description workerId : String)
    (drafts : List StepDraft) : ApiResult × DB :=
  match getUser db userId with
  | none => (.forbidden, db)
  | some user =>
      if user.role ≠ "manager" then (.forbidden, db)
      else if title = "" ∨ workerId = "" ∨ drafts = [] then (.badRequest, db)
      else
        let (job, db1) := createJobRow db title description userId workerId "in_progress"
        let db2 := createStepsLoop db1 job.id drafts 0
        (.ok, db2)

/-- POST /api/uploads: worker-role check, file present, stepId truthy, step
exists; then it creates the upload and sets the step to "awaiting_review"
(there is no assigned-worker check and no step-status guard in the source). -/
def submitUpload (db : DB) (userId : String) (file : Option FileMeta) (stepId : Nat) :
    ApiResult × DB :=
  match getUser db userId with
  | none => (.forbidden, db)
  | some user =>
      if user.role ≠ "worker" then (.forbidden, db)
      else match file with
        | none => (.badRequest, db)
        | some f =>
            if stepId = 0 then (.badRequest, db)
            else match getStep db stepId with
              | none => (.notFound, db)
              | some _ =>
                  let db1 := (createUploadRow db stepId userId f).2
                  let db2 := updateStepStatus db1 stepId "awaiting_review"
                  (.ok, db2)

/-- POST /api/reviews: manager-role check; creates the review row first, then
if the upload exists branches on the decision string: "approved" sets the step
approved, activates the first later pending step or, when every later step is
approved, marks the job completed; "rejected" resets the step to
"awaiting_upload"; any other decision changes nothing else. -/
def submitReview (db : DB) (userId : String) (uploadId : Nat) (decision : String)
    (feedback : Option String) : ApiResult × DB :=
  match getUser db userId with
  | none => (.forbidden, db)
  | some user =>
      if user.role ≠ "manager" then (.forbidden, db)
      else
        let db1 := (createReviewRow db uploadId userId decision feedback).2
        match getUpload db1 uploadId with
        | none => (.ok, db1)
        | some upload =>
            if decision = "approved" then
              let db2 := updateStepStatus db1 upload.stepId "approved"
              match getStep db2 upload.stepId with
              | none => (.ok, db2)
              | some step =>
                  let sortedSteps := sortByOrder (getStepsByJob db2 step.jobId)
                  match sortedSteps.find?
                      (fun s => decide (step.order < s.order) && s.status == "pending") with
                  | some nextStep => (.ok, updateStepStatus db2 nextStep.id "awaiting_upload")
                  | none =>
                      if sortedSteps.all
                          (fun s => if s.order ≤ step.order then true
                            else s.status == "approved") then
                        (.ok, updateJobStatus db2 step.jobId "completed")
                      else (.ok, db2)
            else if decision = "rejected" then
              (.ok, updateStepStatus db1 upload.stepId "awaiting_upload")
            else (.ok, db1)

/-! ### Read-side helpers and the spec's aggregation function -/

/-- Status of the (first) steps row with this id. -/
def stepStatusOf (db : DB) (id : Nat) : Option String :=
  (db.stepsTbl.find? (fun s => s.id == id)).map (fun s => s.status)

/-- Status of the (first) jobs row with this id. -/
def jobStatusOf (db : DB) (id : Nat) : Option String :=
  (db.jobsTbl.find? (fun j => j.id == id)).map (fun j => j.status)

/-- A step status counting as "active" for the one-active-step invariant. -/
def isActiveStatus (s : String) : Bool :=
  s == "awaiting_upload" || s == "awaiting_review" || s == "rejected"

/-- The job's steps whose status is active. -/
def activeStepsOfJob (db : DB) (jobId : Nat) : List Step :=
  db.stepsTbl.filter (fun s => s.jobId == jobId && isActiveStatus s.status)

/-- `getJobStatus` from the manager dashboard (the client read side), the
repository's pure job-status derivation over a job's steps — the spec calls
it computeJobStatus: "awaiting_review" if some step is awaiting_review, else
"completed" if every step is approved, else "in_progress" if some step has
started (is not pending), else "pending". -/
def getJobStatus (jobSteps : List Step) : String :=
  if jobSteps.any (fun s => s.status == "awaiting_review") then "awaiting_review"
  else if jobSteps.all (fun s => s.status == "approved") then "completed"
  else if jobSteps.any (fun s => s.status != "pending") then "in_progress"
  else "pending"

/-- The steps the POST /api/jobs loop inserts for the given drafts, starting at
serial id `startId` and draft index `i`. -/
def stepsFromDrafts (startId jobId : Nat) (drafts : List StepDraft) (i : Nat) : List Step :=
  match drafts with
  | [] => []
  | d :: rest =>
      ⟨startId, jobId, d.title, d.description, d.instructions, i + 1,
        if i = 0 then "awaiting_upload" else "pending"⟩ ::
      stepsFromDrafts (startId + 1) jobId rest (i + 1)

/-! ### Concrete states used to exercise the handlers -/

/-- Sample file metadata for a first upload. -/
def fmEx : FileMeta := ⟨"photo1.jpg", "photo1.jpg", "image/jpeg", 1000⟩

/-- Sample file metadata for a second upload. -/
def fmEx2 : FileMeta := ⟨"photo2.jpg", "photo2.jpg", "image/jpeg", 1001⟩

/-- A manager "m" and a worker "w". -/
def dbUsers : List User := [⟨"m", "manager"⟩, ⟨"w", "worker"⟩]

/-- Empty database holding only the two users. -/
def dbTrace0 : DB := ⟨dbUsers, [], [], [], [], 1, 1, 1, 1⟩

/-- After the manager creates a two-step job for "w". -/
def dbTrace1 : DB :=
  (createJob dbTrace0 "m" "Job" "" "w" [⟨"stepA", "", ""⟩, ⟨"stepB", "", ""⟩]).2

/-- After the worker uploads to step 1. -/
def dbTrace2 : DB := (submitUpload dbTrace1 "w" (some fmEx) 1).2

/-- After the manager approves upload 1 (step 1 approved, step 2 activated). -/
def dbTrace3 : DB := (submitReview dbTrace2 "m" 1 "approved" none).2

/-- After the worker uploads to the already-approved step 1 again. -/
def dbTrace4 : DB := (submitUpload dbTrace3 "w" (some fmEx2) 1).2

/-- After the manager creates a three-step job for "w". -/
def dbSeq1 : DB :=
  (createJob dbTrace0 "m" "Job3" "" "w"
    [⟨"A", "", ""⟩, ⟨"B", "", ""⟩, ⟨"C", "", ""⟩]).2

/-- After the worker uploads to step 1 of the three-step job. -/
def dbSeq2 : DB := (submitUpload dbSeq1 "w" (some fmEx) 1).2

/-- After the manager approves upload 1 of the three-step job. -/
def dbSeq3 : DB := (submitReview dbSeq2 "m" 1 "approved" none).2

/-- After the manager (incorrectly) approves upload 1 a second time. -/
def dbSeq4 : DB := (submitReview dbSeq3 "m" 1 "approved" none).2

/-- A job whose step 1 awaits review (upload 1 recorded) while step 2 is
already awaiting upload: no later step is pending. -/
def dbC2 : DB :=
  ⟨[⟨"m", "manager"⟩], [⟨1, "J", "", "m", "w", "in_progress"⟩],
    [⟨1, 1, "A", "", "", 1, "awaiting_review"⟩, ⟨2, 1, "B", "", "", 2, "awaiting_upload"⟩],
    [⟨1, 1, "w", "f", "f", "image/jpeg", 1⟩], [], 2, 3, 2, 1⟩

/-- A job whose step 1 awaits review (upload 1 recorded) while step 2 is still
pending: the normal approval situation. -/
def dbC2w : DB :=
  ⟨dbUsers, [⟨1, "J", "", "m", "w", "in_progress"⟩],
    [⟨1, 1, "A", "", "", 1, "awaiting_review"⟩, ⟨2, 1, "B", "", "", 2, "pending"⟩],
    [⟨1, 1, "w", "f", "f", "image/jpeg", 1⟩], [], 2, 3, 2, 1⟩

/-- A job whose only step is already approved. -/
def dbC5 : DB :=
  ⟨dbUsers, [⟨1, "J", "", "m", "w", "in_progress"⟩],
    [⟨1, 1, "A", "", "", 1, "approved"⟩], [], [], 2, 2, 1, 1⟩

/-- A job whose step 1 awaits review, with upload 1 recorded and no review. -/
def dbC7 : DB :=
  ⟨dbUsers, [⟨1, "J", "", "m", "w", "in_progress"⟩],
    [⟨1, 1, "A", "", "", 1, "awaiting_review"⟩],
    [⟨1, 1, "w", "f", "f", "image/jpeg", 1⟩], [], 2, 2, 2, 1⟩

/-- A job assigned to worker "w1", while "w2" also has the worker role. -/
def dbC8 : DB :=
  ⟨[⟨"m", "manager"⟩, ⟨"w1", "worker"⟩, ⟨"w2", "worker"⟩],
    [⟨1, "J", "", "m", "w1", "in_progress"⟩],
    [⟨1, 1, "A", "", "", 1, "awaiting_upload"⟩], [], [], 2, 2, 1, 1⟩

/-- A worker whose only job is stored as "completed", all steps approved. -/
def dbC10 : DB :=
  ⟨dbUsers, [⟨1, "J", "", "m", "w", "completed"⟩],
    [⟨1, 1, "A", "", "", 1, "approved"⟩], [], [], 2, 2, 1, 1⟩

/-- A worker whose only job is stored as "in_progress", with step 1 approved
and step 2 still awaiting upload. -/
def dbC10b : DB :=
  ⟨dbUsers, [⟨1, "J", "", "m", "w", "in_progress"⟩],
    [⟨1, 1, "A", "", "", 1, "approved"⟩, ⟨2, 1, "B", "", "", 2, "awaiting_upload"⟩],
    [], [], 2, 3, 1, 1⟩


/-! ### Helper lemmas -/

/-- Inserting a review row leaves the uploads table untouched. -/
theorem getUpload_createReviewRow (db : DB) (upId : Nat) (m st : String)
    (fb : Option String) (i : Nat) :
    getUpload (createReviewRow db upId m st fb).2 i = getUpload db i := rfl

/-- Inserting a review row leaves the steps table untouched. -/
theorem getStep_createReviewRow (db : DB) (upId : Nat) (m st : String)
    (fb : Option String) (i : Nat) :
    getStep (createReviewRow db upId m st fb).2 i = getStep db i := rfl

/-- The status update preserves each row's id, so fetching by id commutes with
it. -/
theorem getStep_updateStepStatus (db : DB) (id id' : Nat) (st : String) :
    getStep (updateStepStatus db id' st) id
      = (getStep db id).map
          (fun s => if s.id = id' then { s with status := st } else s) := by
  unfold getStep updateStepStatus
  rw [List.find?_map]
  have hp : ((fun s : Step => s.id == id) ∘ fun s : Step =>
      if s.id = id' then { s with status := st } else s)
        = fun s : Step => s.id == id := by
    funext s
    by_cases h : s.id = id' <;> simp [h]
  rw [hp]

/-- `sortByOrder` output is sorted by ascending order. -/
theorem sortByOrder_sorted (l : List Step) : List.Sorted stepLE (sortByOrder l) :=
  List.sorted_insertionSort stepLE l

/-- `sortByOrder` is a permutation, so it preserves membership. -/
theorem mem_sortByOrder {s : Step} {l : List Step} : s ∈ sortByOrder l ↔ s ∈ l :=
  (List.perm_insertionSort stepLE l).mem_iff

/-- Sorting an already sorted query result is the identity, so the route's
re-sort of `getStepsByJob` changes nothing. -/
theorem sortByOrder_getStepsByJob (db : DB) (jobId : Nat) :
    sortByOrder (getStepsByJob db jobId) = getStepsByJob db jobId :=
  List.Sorted.insertionSort_eq (sortByOrder_sorted _)

/-- On a sorted list, `find?` returns a satisfying element of minimal order. -/
theorem find?_sorted_min (p : Step → Bool) :
    ∀ (l : List Step), List.Sorted stepLE l → ∀ s, l.find? p = some s →
      s ∈ l ∧ p s = true ∧ ∀ t ∈ l, p t = true → s.order ≤ t.order := by
  intro l
  induction l with
  | nil => intro _ s h; simp at h
  | cons a l ih =>
      intro hs s hfind
      rcases List.sorted_cons.mp hs with ⟨ha, hl⟩
      by_cases hpa : p a
      · rw [List.find?_cons_of_pos _ hpa] at hfind
        cases hfind
        refine ⟨List.mem_cons_self a l, hpa, ?_⟩
        intro t ht _
        rcases List.mem_cons.mp ht with h | h
        · exact h ▸ Nat.le_refl _
        · exact ha t h
      · rw [List.find?_cons_of_neg _ hpa] at hfind
        rcases ih hl s hfind with ⟨hmem, hps, hmin⟩
        refine ⟨List.mem_cons_of_mem _ hmem, hps, ?_⟩
        intro t ht hpt
        rcases List.mem_cons.mp ht with h | h
        · exact absurd (h ▸ hpt) hpa
        · exact hmin t h hpt

/-! ### Claim theorems -/

/-- Claim C3 (code bug): the one-active-step invariant fails.  Starting from
two users, the orchestrator calls create a two-step job, upload to step 1,
approve it (activating step 2), and then upload to the already-approved step 1
again; the last call is accepted, leaving two steps of the job with an active
status (awaiting_upload / awaiting_review / rejected) where the spec allows at
most one. -/
theorem two_active_steps_reachable :
    (createJob dbTrace0 "m" "Job" "" "w" [⟨"stepA", "", ""⟩, ⟨"stepB", "", ""⟩]).1
        = ApiResult.ok ∧
    (submitUpload dbTrace1 "w" (some fmEx) 1).1 = ApiResult.ok ∧
    (submitReview dbTrace2 "m" 1 "approved" none).1 = ApiResult.ok ∧
    (activeStepsOfJob dbTrace3 1).length = 1 ∧
    (submitUpload dbTrace3 "w" (some fmEx2) 1).1 = ApiResult.ok ∧
    (activeStepsOfJob dbTrace4 1).length = 2 ∧
    stepStatusOf dbTrace4 1 = some "awaiting_review" ∧
    stepStatusOf dbTrace4 2 = some "awaiting_upload" := by decide

/-- Claim C4 (code bug): after the worker uploads to step 1 of a fresh
two-step job, the job's steps derive to job status "awaiting_review" under
getJobStatus (the repository's own derivation, which the spec calls
computeJobStatus), but the persisted job status is still "in_progress": the
upload handler never touches the job row. -/
theorem job_status_not_recomputed_after_upload :
    (submitUpload dbTrace1 "w" (some fmEx) 1).1 = ApiResult.ok ∧
    getJobStatus (getStepsByJob dbTrace2 1) = "awaiting_review" ∧
    jobStatusOf dbTrace2 1 = some "in_progress" := by decide

/-- Claim C5 (code bug): an upload against a step whose status is "approved"
is accepted: the handler returns ok, creates the Upload row and moves the step
to "awaiting_review", where the spec requires an InvalidState failure and no
row. -/
theorem upload_accepted_on_approved_step :
    stepStatusOf dbC5 1 = some "approved" ∧
    (submitUpload dbC5 "w" (some fmEx) 1).1 = ApiResult.ok ∧
    (submitUpload dbC5 "w" (some fmEx) 1).2.uploadsTbl
        = [⟨1, 1, "w", "photo1.jpg", "photo1.jpg", "image/jpeg", 1000⟩] ∧
    stepStatusOf (submitUpload dbC5 "w" (some fmEx) 1).2 1
        = some "awaiting_review" := by decide

/-- Claim C6 (code bug): a second review of an already-approved upload is
accepted.  In the three-step trace, approving upload 1 a second time returns
ok, creates a second Review row, and re-runs the next-step activation: with
step 2 already awaiting_upload, the scan now activates the pending step 3, so
both step 2 and step 3 end up awaiting_upload. -/
theorem second_review_of_same_upload_accepted :
    dbSeq3.reviewsTbl.length = 1 ∧
    stepStatusOf dbSeq3 2 = some "awaiting_upload" ∧
    stepStatusOf dbSeq3 3 = some "pending" ∧
    (submitReview dbSeq3 "m" 1 "approved" none).1 = ApiResult.ok ∧
    dbSeq4.reviewsTbl.length = 2 ∧
    stepStatusOf dbSeq4 2 = some "awaiting_upload" ∧
    stepStatusOf dbSeq4 3 = some "awaiting_upload" := by decide

/-- Claim C7 (code bug): a rejection with no feedback (and likewise with empty
feedback) is accepted: the handler returns ok and persists the Review row,
where the spec requires a ValidationError and no row. -/
theorem rejection_without_feedback_accepted :
    (submitReview dbC7 "m" 1 "rejected" none).1 = ApiResult.ok ∧
    (submitReview dbC7 "m" 1 "rejected" none).2.reviewsTbl
        = [⟨1, 1, "m", "rejected", none⟩] ∧
    stepStatusOf (submitReview dbC7 "m" 1 "rejected" none).2 1
        = some "awaiting_upload" ∧
    (submitReview dbC7 "m" 1 "rejected" (some "")).2.reviewsTbl
        = [⟨1, 1, "m", "rejected", some ""⟩] := by decide

/-- Claim C8 (code bug): worker "w2" is not the assigned worker of job 1
(which belongs to "w1"), yet the upload handler accepts the upload: it checks
only the worker role, never the job's workerId. -/
theorem unassigned_worker_upload_accepted :
    (dbC8.jobsTbl.find? (fun j => j.id == 1)).map (fun j => j.workerId)
        = some "w1" ∧
    (submitUpload dbC8 "w2" (some fmEx) 1).1 = ApiResult.ok ∧
    (submitUpload dbC8 "w2" (some fmEx) 1).2.uploadsTbl
        = [⟨1, 1, "w2", "photo1.jpg", "photo1.jpg", "image/jpeg", 1000⟩] := by decide

/-- Claim C2, counterexample: in dbC2 step 1 (order 1) awaits review on upload
1 while step 2 (order 2) is awaiting_upload.  Approving upload 1 approves step
1, and among the job's steps no step has order greater than 1 and status
pending — so the claim requires the job to be marked completed — yet the job
status stays "in_progress": the code additionally requires every later step to
be approved. -/
theorem approval_without_completion :
    (submitReview dbC2 "m" 1 "approved" none).1 = ApiResult.ok ∧
    stepStatusOf (submitReview dbC2 "m" 1 "approved" none).2 1 = some "approved" ∧
    ((submitReview dbC2 "m" 1 "approved" none).2.stepsTbl.filter
        (fun s => decide (1 < s.order) && s.status == "pending")) = [] ∧
    jobStatusOf (submitReview dbC2 "m" 1 "approved" none).2 1
        = some "in_progress" := by decide

/-- Claim C9, counterexample: a createJob call by a manager with a non-empty
step list but an empty title does not create the job: the handler rejects it
with the same 400 validation response, because the guard also requires a
truthy title and worker id. -/
theorem createJob_rejects_empty_title :
    (createJob dbTrace0 "m" "" "" "w" [⟨"stepA", "", ""⟩]).1
        = ApiResult.badRequest ∧
    (createJob dbTrace0 "m" "" "" "w" [⟨"stepA", "", ""⟩]).2 = dbTrace0 := by decide

/-- Claim C1: a review with decision "rejected" submitted by a manager against
an existing upload returns ok, appends exactly the new Review row, resets the
upload's owning step to "awaiting_upload" (not to a durable "rejected") while
leaving every other step untouched, and changes no job or upload row. -/
theorem submitReview_rejected_resets_step (db : DB) (uid : String) (u : User)
    (upId : Nat) (up : Upload) (fb : Option String)
    (hu : getUser db uid = some u) (hrole : u.role = "manager")
    (hup : getUpload db upId = some up) :
    (submitReview db uid upId "rejected" fb).1 = ApiResult.ok ∧
    (submitReview db uid upId "rejected" fb).2.reviewsTbl
        = db.reviewsTbl ++ [⟨db.nextReviewId, upId, uid, "rejected", fb⟩] ∧
    (submitReview db uid upId "rejected" fb).2.stepsTbl
        = db.stepsTbl.map
            (fun s => if s.id = up.stepId then { s with status := "awaiting_upload" }
              else s) ∧
    (submitReview db uid upId "rejected" fb).2.jobsTbl = db.jobsTbl ∧
    (submitReview db uid upId "rejected" fb).2.uploadsTbl = db.uploadsTbl := by
  have hmain : submitReview db uid upId "rejected" fb
      = (ApiResult.ok,
          updateStepStatus (createReviewRow db upId uid "rejected" fb).2
            up.stepId "awaiting_upload") := by
    unfold submitReview
    rw [hu]
    dsimp only
    rw [if_neg (by simp [hrole])]
    rw [getUpload_createReviewRow, hup]
    dsimp only
    rw [if_neg (by decide), if_pos rfl]
  rw [hmain]
  exact ⟨rfl, rfl, rfl, rfl, rfl⟩

/-- Witness for claim C1: rejecting upload 1 of the awaiting-review job with
feedback "blurry" lands its step back at "awaiting_upload". -/
theorem submitReview_rejected_resets_step_witness :
    (submitReview dbC7 "m" 1 "rejected" (some "blurry")).2.stepsTbl
        = dbC7.stepsTbl.map
            (fun s => if s.id = 1 then { s with status := "awaiting_upload" } else s) :=
  (submitReview_rejected_resets_step dbC7 "m" ⟨"m", "manager"⟩ 1
    ⟨1, 1, "w", "f", "f", "image/jpeg", 1⟩ (some "blurry") rfl rfl rfl).2.2.1

/-- Inserting a review row leaves the steps table untouched, so the job query
after the approve-update ignores it. -/
theorem getStepsByJob_update_createReviewRow (db : DB) (upId : Nat)
    (m dec : String) (fb : Option String) (i : Nat) (s : String) (j : Nat) :
    getStepsByJob (updateStepStatus (createReviewRow db upId m dec fb).2 i s) j
      = getStepsByJob (updateStepStatus db i s) j := rfl

/-- Claim C2 (amended): a review with decision "approved" submitted by a
manager against an existing upload of an existing step returns ok, appends the
Review row, approves the owning step, and then scans the job's steps in
ascending order: the first step with order greater than the approved step's
order and status "pending" is set to "awaiting_upload" (jobs unchanged); if no
such pending step exists, the job is marked "completed" exactly when every
step with order greater than the approved step's order is already approved,
and otherwise nothing further changes. -/
theorem submitReview_approved_spec (db : DB) (uid : String) (u : User)
    (upId : Nat) (up : Upload) (st : Step) (fb : Option String)
    (hu : getUser db uid = some u) (hrole : u.role = "manager")
    (hup : getUpload db upId = some up)
    (hst : getStep db up.stepId = some st) :
    (submitReview db uid upId "approved" fb).1 = ApiResult.ok ∧
    (submitReview db uid upId "approved" fb).2.reviewsTbl
        = db.reviewsTbl ++ [⟨db.nextReviewId, upId, uid, "approved", fb⟩] ∧
    (submitReview db uid upId "approved" fb).2.uploadsTbl = db.uploadsTbl ∧
    (match (getStepsByJob (updateStepStatus db up.stepId "approved") st.jobId).find?
        (fun s => decide (st.order < s.order) && s.status == "pending") with
     | some nextStep =>
        (submitReview db uid upId "approved" fb).2.stepsTbl
            = (updateStepStatus (updateStepStatus db up.stepId "approved")
                nextStep.id "awaiting_upload").stepsTbl ∧
        (submitReview db uid upId "approved" fb).2.jobsTbl = db.jobsTbl
     | none =>
        (submitReview db uid upId "approved" fb).2.stepsTbl
            = (updateStepStatus db up.stepId "approved").stepsTbl ∧
        if (getStepsByJob (updateStepStatus db up.stepId "approved") st.jobId).all
            (fun s => if s.order ≤ st.order then true else s.status == "approved")
        then (submitReview db uid upId "approved" fb).2.jobsTbl
            = (updateJobStatus db st.jobId "completed").jobsTbl
        else (submitReview db uid upId "approved" fb).2.jobsTbl = db.jobsTbl) := by
  have hst' : db.stepsTbl.find? (fun s => s.id == up.stepId) = some st := hst
  have hid : st.id = up.stepId := by
    have h := List.find?_some hst'
    simpa using h
  unfold submitReview
  rw [hu]
  dsimp only
  rw [if_neg (by simp [hrole])]
  rw [getUpload_createReviewRow, hup]
  dsimp only
  rw [if_pos rfl]
  rw [getStep_updateStepStatus, getStep_createReviewRow, hst]
  dsimp only [Option.map]
  rw [if_pos hid]
  dsimp only
  rw [getStepsByJob_update_createReviewRow, sortByOrder_getStepsByJob]
  cases hfind : (getStepsByJob (updateStepStatus db up.stepId "approved") st.jobId).find?
      (fun s => decide (st.order < s.order) && s.status == "pending") with
  | some nextStep =>
      exact ⟨rfl, rfl, rfl, rfl, rfl⟩
  | none =>
      cases hall : (getStepsByJob (updateStepStatus db up.stepId "approved") st.jobId).all
          (fun s => if s.order ≤ st.order then true else s.status == "approved") with
      | true => exact ⟨rfl, rfl, rfl, rfl, rfl⟩
      | false => exact ⟨rfl, rfl, rfl, rfl, rfl⟩

/-- Witness for claim C2: approving upload 1 of dbC2w approves step 1 and
activates the pending step 2, leaving the job row unchanged. -/
theorem submitReview_approved_spec_witness :
    (submitReview dbC2w "m" 1 "approved" none).2.stepsTbl
        = (updateStepStatus (updateStepStatus dbC2w 1 "approved")
            2 "awaiting_upload").stepsTbl ∧
    (submitReview dbC2w "m" 1 "approved" none).2.jobsTbl = dbC2w.jobsTbl :=
  (submitReview_approved_spec dbC2w "m" ⟨"m", "manager"⟩ 1
    ⟨1, 1, "w", "f", "f", "image/jpeg", 1⟩ ⟨1, 1, "A", "", "", 1, "awaiting_review"⟩
    none rfl rfl rfl rfl).2.2.2

/-- Inserting a step row appends it to the steps table. -/
theorem createStepRow_stepsTbl (db : DB) (jobId : Nat) (t de ins : String)
    (o : Nat) (st : String) :
    (createStepRow db jobId t de ins o st).2.stepsTbl
      = db.stepsTbl ++ [⟨db.nextStepId, jobId, t, de, ins, o, st⟩] := rfl

/-- Inserting a step row bumps the serial step id. -/
theorem createStepRow_nextStepId (db : DB) (jobId : Nat) (t de ins : String)
    (o : Nat) (st : String) :
    (createStepRow db jobId t de ins o st).2.nextStepId = db.nextStepId + 1 := rfl

/-- Inserting a step row leaves the jobs table untouched. -/
theorem createStepRow_jobsTbl (db : DB) (jobId : Nat) (t de ins : String)
    (o : Nat) (st : String) :
    (createStepRow db jobId t de ins o st).2.jobsTbl = db.jobsTbl := rfl

/-- The step-creation loop appends exactly `stepsFromDrafts` and leaves the
jobs table alone. -/
theorem createStepsLoop_spec (drafts : List StepDraft) :
    ∀ (db : DB) (jobId i : Nat),
      (createStepsLoop db jobId drafts i).stepsTbl
          = db.stepsTbl ++ stepsFromDrafts db.nextStepId jobId drafts i ∧
      (createStepsLoop db jobId drafts i).jobsTbl = db.jobsTbl := by
  induction drafts with
  | nil => intro db jobId i; simp [createStepsLoop, stepsFromDrafts]
  | cons d rest ih =>
      intro db jobId i
      rcases ih (createStepRow db jobId d.title d.description d.instructions (i + 1)
        (if i = 0 then "awaiting_upload" else "pending")).2 jobId (i + 1) with ⟨h1, h2⟩
      constructor
      · show (createStepsLoop _ jobId rest (i + 1)).stepsTbl = _
        rw [h1, createStepRow_stepsTbl, createStepRow_nextStepId, List.append_assoc]
        rfl
      · show (createStepsLoop _ jobId rest (i + 1)).jobsTbl = _
        rw [h2, createStepRow_jobsTbl]

/-- Shape of the k-th inserted step: serial id, owning job, draft fields,
order i+k+1, and awaiting_upload exactly for the first draft of the run. -/
theorem stepsFromDrafts_get? :
    ∀ (drafts : List StepDraft) (startId jobId i k : Nat), k < drafts.length →
      ∃ d, drafts.get? k = some d ∧
        (stepsFromDrafts startId jobId drafts i).get? k
          = some ⟨startId + k, jobId, d.title, d.description, d.instructions,
              i + k + 1, if i + k = 0 then "awaiting_upload" else "pending"⟩ := by
  intro drafts
  induction drafts with
  | nil => intro _ _ _ k hk; simp at hk
  | cons d rest ih =>
      intro startId jobId i k hk
      cases k with
      | zero => exact ⟨d, rfl, rfl⟩
      | succ k =>
          rcases ih (startId + 1) jobId (i + 1) k (Nat.lt_of_succ_lt_succ hk)
            with ⟨d', hd', hs⟩
          refine ⟨d', hd', ?_⟩
          show (stepsFromDrafts (startId + 1) jobId rest (i + 1)).get? k = _
          rw [hs]
          have e1 : startId + 1 + k = startId + (k + 1) := by omega
          have e2 : i + 1 + k = i + (k + 1) := by omega
          rw [e1, e2]

/-- Claim C9 (amended): a createJob call by a manager fails with the 400
validation response when the step-draft list is empty (leaving the database
unchanged) — and likewise when title or worker id is empty; with a non-empty
title, worker id and draft list it creates the Job with status "in_progress"
and one Step per draft in draft order, orders 1..N, the first step
"awaiting_upload" and every other step "pending". -/
theorem createJob_spec (db : DB) (uid : String) (u : User)
    (title description workerId : String) (drafts : List StepDraft)
    (hu : getUser db uid = some u) (hrole : u.role = "manager") :
    (drafts = [] →
      (createJob db uid title description workerId drafts).1 = ApiResult.badRequest ∧
      (createJob db uid title description workerId drafts).2 = db) ∧
    (title ≠ "" → workerId ≠ "" → drafts ≠ [] →
      (createJob db uid title description workerId drafts).1 = ApiResult.ok ∧
      (createJob db uid title description workerId drafts).2.jobsTbl
          = db.jobsTbl
              ++ [⟨db.nextJobId, title, description, uid, workerId, "in_progress"⟩] ∧
      (createJob db uid title description workerId drafts).2.stepsTbl
          = db.stepsTbl ++ stepsFromDrafts db.nextStepId db.nextJobId drafts 0 ∧
      ∀ k, k < drafts.length →
        ∃ d s, drafts.get? k = some d ∧
          (stepsFromDrafts db.nextStepId db.nextJobId drafts 0).get? k = some s ∧
          s.jobId = db.nextJobId ∧ s.order = k + 1 ∧ s.title = d.title ∧
          s.status = (if k = 0 then "awaiting_upload" else "pending")) := by
  constructor
  · intro hdr
    unfold createJob
    rw [hu]
    dsimp only
    rw [if_neg (by simp [hrole]), if_pos (Or.inr (Or.inr hdr))]
    exact ⟨rfl, rfl⟩
  · intro ht hw hd
    unfold createJob
    rw [hu]
    dsimp only
    rw [if_neg (by simp [hrole]), if_neg (by simp [ht, hw, hd])]
    rcases createStepsLoop_spec drafts
      (createJobRow db title description uid workerId "in_progress").2
      (createJobRow db title description uid workerId "in_progress").1.id 0
      with ⟨h1, h2⟩
    refine ⟨rfl, ?_, ?_, ?_⟩
    · exact h2
    · exact h1
    · intro k hk
      rcases stepsFromDrafts_get? drafts db.nextStepId db.nextJobId 0 k hk
        with ⟨d, hd', hs⟩
      refine ⟨d, _, hd', hs, rfl, by simp, rfl, by simp⟩

/-- Claim C10: getWorkerCurrentStep returns nothing when the worker has no job
with stored status "in_progress" (in particular a completed job yields no
current step); whenever the worker's in_progress job has a non-approved step,
it does return a step; and any step it returns belongs to the worker's first
in_progress job, is not approved, and has minimal order among the job's
non-approved steps — together: it returns the lowest-order non-approved step
of the worker's in_progress job, and nothing otherwise. -/
theorem getWorkerCurrentStep_spec (db : DB) (w : String) :
    ((∀ j ∈ db.jobsTbl, ¬(j.workerId = w ∧ j.status = "in_progress")) →
      getWorkerCurrentStep db w = none) ∧
    (∀ j, db.jobsTbl.find? (fun j => j.workerId == w && j.status == "in_progress")
          = some j →
      ∀ t ∈ db.stepsTbl, t.jobId = j.id → t.status ≠ "approved" →
        ∃ s, getWorkerCurrentStep db w = some s) ∧
    (∀ s, getWorkerCurrentStep db w = some s →
      ∃ j, db.jobsTbl.find? (fun j => j.workerId == w && j.status == "in_progress")
            = some j ∧
        j.workerId = w ∧ j.status = "in_progress" ∧
        s ∈ db.stepsTbl ∧ s.jobId = j.id ∧ s.status ≠ "approved" ∧
        ∀ t ∈ db.stepsTbl, t.jobId = j.id → t.status ≠ "approved" →
          s.order ≤ t.order) := by
  refine ⟨?_, ?_, ?_⟩
  · intro hno
    unfold getWorkerCurrentStep
    have hfn : db.jobsTbl.find?
        (fun j => j.workerId == w && j.status == "in_progress") = none := by
      rw [List.find?_eq_none]
      intro j hj
      simpa using hno j hj
    rw [hfn]
  · intro j hfj t ht htj hta
    unfold getWorkerCurrentStep
    rw [hfj]
    show ∃ s, (sortByOrder (db.stepsTbl.filter (fun s => s.jobId == j.id))).find?
        (fun s => s.status != "approved") = some s
    cases hres : (sortByOrder (db.stepsTbl.filter (fun s => s.jobId == j.id))).find?
        (fun s => s.status != "approved") with
    | some s => exact ⟨s, rfl⟩
    | none =>
        exfalso
        exact List.find?_eq_none.mp hres t
          (mem_sortByOrder.mpr (List.mem_filter.mpr ⟨ht, by simpa using htj⟩))
          (by simpa using hta)
  · intro s hs
    unfold getWorkerCurrentStep at hs
    cases hfj : db.jobsTbl.find?
        (fun j => j.workerId == w && j.status == "in_progress") with
    | none => rw [hfj] at hs; exact absurd hs (by simp)
    | some j =>
        rw [hfj] at hs
        have hj := List.find?_some hfj
        simp only [Bool.and_eq_true, beq_iff_eq] at hj
        rcases find?_sorted_min _ _ (sortByOrder_sorted _) s hs with ⟨hmem, hps, hmin⟩
        have hmf := List.mem_filter.mp (mem_sortByOrder.mp hmem)
        refine ⟨j, rfl, hj.1, hj.2, hmf.1, by simpa using hmf.2, by simpa using hps, ?_⟩
        intro t ht htj hta
        exact hmin t
          (mem_sortByOrder.mpr (List.mem_filter.mpr ⟨ht, by simpa using htj⟩))
          (by simpa using hta)

/-- Witness for claim C10: the worker whose only job is completed has no
current step, while the worker whose in_progress job still has the
non-approved step 2 does get a current step. -/
theorem getWorkerCurrentStep_spec_witness :
    getWorkerCurrentStep dbC10 "w" = none ∧
    (∃ s, getWorkerCurrentStep dbC10b "w" = some s) :=
  ⟨(getWorkerCurrentStep_spec dbC10 "w").1 (by decide),
   (getWorkerCurrentStep_spec dbC10b "w").2.1 ⟨1, "J", "", "m", "w", "in_progress"⟩
     rfl ⟨2, 1, "B", "", "", 2, "awaiting_upload"⟩ (by decide) rfl (by decide)⟩

/-- Witness for claim C9: a manager's one-draft createJob call succeeds. -/
theorem createJob_spec_witness :
    (createJob dbTrace0 "m" "JobW" "" "w" [⟨"stepA", "", ""⟩]).1 = ApiResult.ok :=
  ((createJob_spec dbTrace0 "m" ⟨"m", "manager"⟩ "JobW" "" "w" [⟨"stepA", "", ""⟩]
    rfl rfl).2 (by decide) (by decide) (by decide)).1
